import Mathlib

/-!
Verification of the GenieResource query-resolution and resource-matching
engine against its specification.

The Lean definitions below are a shallow embedding of the Python source:

* region expansion: src/LangchainAgent/src/resource_fetcher.py,
  ResourceFetcher.fetch_resources (the location-expansion step);
* query translation and follow-up merging:
  src/LangchainAgent/src/query_translator.py, QueryTranslator.translate,
  and src/LangchainAgent/src/tools/query_tools.py,
  QueryTools (the translate-query tool and its response parser);
* employee matching: src/LangchainAgent/src/firebase_utils.py,
  FirebaseClient.fetch_employees (server-side filters, client-side rank
  and multi-skill filters, the Partner fallback sentinel, availability
  filtering, and the limit/offset window);
* availability batch resolution: src/LangchainAgent/src/firebase_utils.py,
  FirebaseClient, the private availability batch fetch;
* the response cache: src/LangchainAgent/src/agent.py, ReActAgent
  (cache check, cache update, process_message).

External collaborators (the Firestore client and the LLM) are modelled as
parameters: the document store becomes explicit list data, the LLM call
becomes an Except value, and library JSON parsing becomes an Option value.
All control flow on those values is translated from the source.
-/

namespace GenieResource

/-- ASCII lowercasing, the embedding of the lower method used throughout
the source for case-insensitive comparison (all vocabulary is ASCII). -/
def lowerString (s : String) : String := ⟨s.data.map Char.toLower⟩

/-! ## Region expansion (resource_fetcher.py, lines 66-80) -/

def nordicAliases : List String := ["nordics", "nordic", "nordic countries", "scandinavia"]

def ukAliases : List String := ["uk", "united kingdom", "britain"]

def usAliases : List String := ["us", "usa", "united states", "america"]

/-- One step of the location loop: a falsy (empty) token is dropped, a
region alias expands to its member cities, anything else is kept as is. -/
def expandLocation (loc : String) : List String :=
  if loc = "" then []
  else
    let l := lowerString loc
    if nordicAliases.contains l then ["Oslo", "Stockholm", "Copenhagen"]
    else if ukAliases.contains l then ["London", "Manchester", "Belfast", "Bristol"]
    else if usAliases.contains l then ["New York", "Chicago", "San Francisco"]
    else [loc]

def expandLocations (locs : List String) : List String :=
  locs.flatMap expandLocation

theorem expandLocations_append (l₁ l₂ : List String) :
    expandLocations (l₁ ++ l₂) = expandLocations l₁ ++ expandLocations l₂ := by
  simp [expandLocations]

theorem expandLocation_fixed (loc : String) :
    expandLocations (expandLocation loc) = expandLocation loc := by
  unfold expandLocation
  by_cases h0 : loc = ""
  · simp [h0, expandLocations]
  · simp only [h0, if_false]
    by_cases h1 : nordicAliases.contains (lowerString loc)
    · simp only [h1, if_true]; decide
    · simp only [h1, if_false]
      by_cases h2 : ukAliases.contains (lowerString loc)
      · simp only [h2, if_true]; decide
      · simp only [h2, if_false]
        by_cases h3 : usAliases.contains (lowerString loc)
        · simp only [h3, if_true]; decide
        · simp only [h3, if_false]
          rw [List.elem_iff] at h1 h2 h3
          simp [expandLocations, expandLocation, h0, h1, h2, h3]

/-- C9: Region expansion is idempotent: a second expansion pass over the
output of a first pass is the identity, because no produced city (and no
kept non-region token) is itself a region alias. -/
theorem region_expansion_idempotent (ls : List String) :
    expandLocations (expandLocations ls) = expandLocations ls := by
  induction ls with
  | nil => rfl
  | cons l t ih =>
    have : expandLocations (l :: t) = expandLocation l ++ expandLocations t := rfl
    rw [this, expandLocations_append, expandLocation_fixed, ih]

/-! ## Query translation (query_translator.py and tools/query_tools.py)

A raw extraction result is a JSON-like dictionary in which each of the five
query fields may be absent (none) or present with a possibly empty list. -/

structure RawQuery where
  locations : Option (List String)
  ranks : Option (List String)
  skills : Option (List String)
  weeks : Option (List Nat)
  availability_status : Option (List String)
  deriving DecidableEq

/-- The normalized prior-turn context produced by the normalize-context
step of QueryTranslator (query_translator.py, lines 385-453): all four
fields always present as lists. -/
structure NormContext where
  locations : List String
  skills : List String
  ranks : List String
  weeks : List Nat
  deriving DecidableEq

/-- Python truthiness of an optional list field: present and nonempty. -/
def fieldPresent (o : Option (List α)) : Bool :=
  match o with
  | some (_ :: _) => true
  | _ => false

/-- Embedding of the core-filter test in QueryTranslator.translate
(query_translator.py, lines 111-114): the new extraction supplies
locations together with ranks or skills. -/
def hasCoreFilters (r : RawQuery) : Bool :=
  fieldPresent r.locations && (fieldPresent r.ranks || fieldPresent r.skills)

/-- Embedding of the follow-up merge in QueryTranslator.translate
(query_translator.py, lines 106-133): with core filters the extraction
stands alone; otherwise locations, ranks and skills missing from the
extraction are inherited from the context, and the availability fields
(weeks, availability status) are left exactly as extracted. -/
def mergeWithContext (result : RawQuery) (ctx : NormContext) : RawQuery :=
  if hasCoreFilters result then result
  else
    { result with
      locations :=
        if fieldPresent result.locations then result.locations
        else if ctx.locations.isEmpty then result.locations else some ctx.locations,
      ranks :=
        if fieldPresent result.ranks then result.ranks
        else if ctx.ranks.isEmpty then result.ranks else some ctx.ranks,
      skills :=
        if fieldPresent result.skills then result.skills
        else if ctx.skills.isEmpty then result.skills else some ctx.skills }

/-- Embedding of the context-merging step of QueryTranslator.translate:
the merge runs only when a context was supplied and the utterance was
classified as a follow-up. -/
def translateMergeStep (context : Option NormContext) (is_followup : Bool)
    (result : RawQuery) : RawQuery :=
  match context with
  | some ctx => if is_followup then mergeWithContext result ctx else result
  | none => result

/-- C4 counterexample data: prior context locations London, skills
Frontend Developer, weeks 1. -/
def priorCtx : NormContext :=
  { locations := ["London"], skills := ["Frontend Developer"], ranks := [], weeks := [1] }

/-- C4 counterexample data: the extraction of a follow-up utterance that
mentions week 3 only. -/
def followupExtraction : RawQuery :=
  { locations := none, ranks := none, skills := none,
    weeks := some [3], availability_status := some ["Available"] }

/-- C4 counterexample: with prior weeks [1] and a follow-up extraction
mentioning week 3, the merged query's weeks are [3], not the union [1, 3]:
the translate merge replaces the week list instead of unioning it (the
repository's own follow-up test asserts the same replacement). -/
theorem followup_weeks_replaced_not_unioned :
    (translateMergeStep (some priorCtx) true followupExtraction).weeks ≠ some [1, 3] ∧
    (translateMergeStep (some priorCtx) true followupExtraction).weeks = some [3] ∧
    (translateMergeStep (some priorCtx) true followupExtraction).locations = some ["London"] := by
  decide

/-- C4 as amended: for every follow-up-classified utterance whose
extraction mentions at least one week, the merged query's week list equals
the newly extracted week list (prior weeks are discarded, not unioned),
and the availability status is likewise the extracted one. -/
theorem followup_weeks_replacement (ctx : NormContext) (r : RawQuery)
    (ws : List Nat) (h : r.weeks = some ws) :
    (translateMergeStep (some ctx) true r).weeks = some ws ∧
    (translateMergeStep (some ctx) true r).availability_status = r.availability_status := by
  unfold translateMergeStep mergeWithContext
  by_cases hc : hasCoreFilters r
  · simp [hc, h]
  · simp [hc, h]

/-- Witness for the amended C4 theorem at the counterexample input. -/
theorem followup_weeks_replacement_witness :
    (translateMergeStep (some priorCtx) true followupExtraction).weeks = some [3] ∧
    (translateMergeStep (some priorCtx) true followupExtraction).availability_status =
      followupExtraction.availability_status :=
  followup_weeks_replacement priorCtx followupExtraction [3] rfl

/-- The translated query produced by the translate-query tool
(query_tools.py): the five fields always present as lists, plus the error
marker the failure paths attach. -/
structure TranslatedQuery where
  locations : List String
  ranks : List String
  skills : List String
  weeks : List Nat
  availability_status : List String
  error : Option String
  deriving DecidableEq

/-- The default dictionary returned by the failure paths of the
translate-query tool: every constraint empty plus an error entry. -/
def fallbackTranslated (e : String) : TranslatedQuery :=
  { locations := [], ranks := [], skills := [], weeks := [],
    availability_status := [], error := some e }

/-- Embedding of QueryTools parse of the translation response
(query_tools.py, lines 164-201). The regex extraction plus JSON decoding
is library machinery, modelled as its outcome: none when the decode
raises, some dictionary otherwise. On success the five expected keys are
filled in when missing; on failure every field is empty and an error entry
is attached. -/
def parseTranslationResponse (decoded : Option RawQuery) : TranslatedQuery :=
  match decoded with
  | some q =>
      { locations := q.locations.getD [], ranks := q.ranks.getD [],
        skills := q.skills.getD [], weeks := q.weeks.getD [],
        availability_status := q.availability_status.getD [], error := none }
  | none => fallbackTranslated "Failed to parse response"

/-- Embedding of the translate-query tool implementation (query_tools.py,
lines 52-85). The model invocation is a collaborator call that may raise,
modelled as an Except value; the catch-all except branch returns the
default dictionary instead of re-raising. -/
def translateQueryImpl (invokeResult : Except String String)
    (decodeJson : String → Option RawQuery) : TranslatedQuery :=
  match invokeResult with
  | Except.ok text => parseTranslationResponse (decodeJson text)
  | Except.error e => fallbackTranslated ("Failed to translate query: " ++ e)

/-- C5: for every collaborator response — the model call raising, the
response carrying no decodable JSON (malformed JSON, fenced block, prose),
or a decodable dictionary with any subset of keys — query translation
returns a best-effort structured query whose unresolved fields are empty
lists, and never an exception: every branch of the implementation yields a
TranslatedQuery value. -/
theorem translate_query_never_raises (invokeResult : Except String String)
    (decodeJson : String → Option RawQuery) :
    (∀ e, invokeResult = Except.error e →
      translateQueryImpl invokeResult decodeJson =
        fallbackTranslated ("Failed to translate query: " ++ e)) ∧
    (∀ text, invokeResult = Except.ok text → decodeJson text = none →
      translateQueryImpl invokeResult decodeJson =
        fallbackTranslated "Failed to parse response") ∧
    (∀ text q, invokeResult = Except.ok text → decodeJson text = some q →
      translateQueryImpl invokeResult decodeJson =
        { locations := q.locations.getD [], ranks := q.ranks.getD [],
          skills := q.skills.getD [], weeks := q.weeks.getD [],
          availability_status := q.availability_status.getD [], error := none }) := by
  refine ⟨?_, ?_, ?_⟩
  · intro e he; subst he; rfl
  · intro text ht hd; subst ht
    simp [translateQueryImpl, parseTranslationResponse, hd]
  · intro text q ht hd; subst ht
    simp [translateQueryImpl, parseTranslationResponse, hd]

/-- Witness for C5: the malformed-response path at a concrete input yields
the empty-constraint best-effort dictionary. -/
theorem translate_query_never_raises_witness :
    translateQueryImpl (Except.ok "not json at all") (fun _ => none) =
      fallbackTranslated "Failed to parse response" :=
  (translate_query_never_raises (Except.ok "not json at all") (fun _ => none)).2.1
    "not json at all" rfl rfl

/-! ## Availability batch resolution (firebase_utils.py, lines 321-417) -/

/-- A stored week document in the availability weeks subcollection; every
field of the raw document may be absent. -/
structure WeekDoc where
  week_number : Option Nat
  status : Option String
  notes : Option String
  hours : Option Nat
  deriving DecidableEq

/-- A reduced per-week availability record as built by the batch fetch:
week, status (defaulting to Unknown when the stored record has none),
notes and hours. -/
structure WeekData where
  week : Nat
  status : String
  notes : String
  hours : Nat
  deriving DecidableEq

/-- Embedding of the week-document conversion loop (firebase_utils.py,
lines 364-372): documents without a week number are skipped; missing
status, notes and hours default to Unknown, empty and zero. -/
def convertWeekDocs (docs : List WeekDoc) : List WeekData :=
  docs.filterMap (fun d =>
    d.week_number.map (fun w =>
      { week := w, status := d.status.getD "Unknown",
        notes := d.notes.getD "", hours := d.hours.getD 0 }))

/-- Stable insertion used to model the in-memory sort by week number. -/
def insertWeek (x : WeekData) : List WeekData → List WeekData
  | [] => [x]
  | y :: ys => if y.week ≤ x.week then y :: insertWeek x ys else x :: y :: ys

/-- Sort by week number (the sort key used at firebase_utils.py lines 379
and 402). -/
def sortByWeek (l : List WeekData) : List WeekData :=
  l.foldr insertWeek []

theorem insertWeek_perm (x : WeekData) (l : List WeekData) :
    (insertWeek x l).Perm (x :: l) := by
  induction l with
  | nil => exact List.Perm.refl _
  | cons y ys ih =>
    unfold insertWeek
    by_cases h : y.week ≤ x.week
    · rw [if_pos h]
      exact (List.Perm.cons y ih).trans (List.Perm.swap x y ys)
    · rw [if_neg h]

theorem sortByWeek_perm (l : List WeekData) : (sortByWeek l).Perm l := by
  induction l with
  | nil => exact List.Perm.refl _
  | cons y ys ih =>
    have h : sortByWeek (y :: ys) = insertWeek y (sortByWeek ys) := rfl
    rw [h]
    exact (insertWeek_perm y (sortByWeek ys)).trans (List.Perm.cons y ih)

theorem mem_sortByWeek {a : WeekData} {l : List WeekData} :
    a ∈ sortByWeek l ↔ a ∈ l :=
  (sortByWeek_perm l).mem_iff

/-- The record synthesized for a requested week with no stored data
(firebase_utils.py, lines 383-390). -/
def mkMissingWeek (w : Nat) : WeekData :=
  { week := w, status := "Unavailable", notes := "No availability data found", hours := 0 }

/-- Embedding of the per-employee body of the private availability batch
fetch (firebase_utils.py, lines 354-406): convert the stored week
documents; when specific weeks were requested, sort, synthesize a record
for every requested week with no stored data, restrict to the requested
weeks, and sort again; otherwise return all stored weeks sorted. -/
def fetchAvailabilityEmployee (docs : List WeekDoc) (weeks : List Nat) : List WeekData :=
  let all_weeks_data := convertWeekDocs docs
  let target_weeks := weeks.dedup
  if target_weeks.isEmpty then sortByWeek all_weeks_data
  else
    let sorted := sortByWeek all_weeks_data
    let existing_weeks := sorted.map (fun wd => wd.week)
    let with_synth :=
      sorted ++ (target_weeks.filter (fun w => !existing_weeks.contains w)).map mkMissingWeek
    sortByWeek (with_synth.filter (fun wd => target_weeks.contains wd.week))

/-- Embedding of the private availability batch fetch (firebase_utils.py,
lines 321-417): the Firestore availability collection is modelled as a map
from employee number to the optional list of stored week documents; empty
employee numbers and employees with no availability document are skipped,
and every remaining employee is mapped to its reduced week list. -/
def fetchAvailabilityBatch (store : String → Option (List WeekDoc))
    (employee_numbers : List String) (weeks : List Nat) :
    List (String × List WeekData) :=
  employee_numbers.filterMap (fun en =>
    if en = "" then none
    else
      match store en with
      | none => none
      | some docs => some (en, fetchAvailabilityEmployee docs weeks))

/-- C3 counterexample documents: one stored record, for week 1, and
nothing for week 5. -/
def c3Docs : List WeekDoc :=
  [{ week_number := some 1, status := some "Available", notes := none, hours := some 40 }]

/-- C3 counterexample store: employee E1 holds the counterexample
documents. -/
def c3Store : String → Option (List WeekDoc) := fun en =>
  if en = "E1" then some c3Docs else none

/-- C3 counterexample: requesting week 5 for employee E1, who has no
stored record for that week, the batch fetch reports week 5 with status
Unavailable (notes: no availability data found), not Unknown — the code
synthesizes an Unavailable record for the missing week, contradicting the
claim. -/
theorem missing_week_synthesized_unavailable :
    fetchAvailabilityBatch c3Store ["E1"] [5] =
      [("E1", [{ week := 5, status := "Unavailable",
                 notes := "No availability data found", hours := 0 }])] ∧
    ∀ entry ∈ fetchAvailabilityBatch c3Store ["E1"] [5],
      ∀ wd ∈ entry.2, wd.status ≠ "Unknown" := by
  constructor
  · decide
  · decide

/-- C3 as amended: for every employee availability document and requested
week list, every requested week with no stored record appears in the
resolver output as a synthesized record with status Unavailable, notes
saying no availability data was found, and zero hours — and every output
record for such a week carries exactly that Unavailable status (never
Unknown, which is only the default for a stored record lacking a status
field). -/
theorem missing_week_unavailable_record (docs : List WeekDoc) (weeks : List Nat)
    (w : Nat) (hw : w ∈ weeks)
    (hmiss : ∀ d ∈ convertWeekDocs docs, d.week ≠ w) :
    (mkMissingWeek w ∈ fetchAvailabilityEmployee docs weeks) ∧
    (∀ wd ∈ fetchAvailabilityEmployee docs weeks, wd.week = w → wd = mkMissingWeek w) := by
  have hwt : w ∈ weeks.dedup := List.mem_dedup.mpr hw
  have hne : weeks.dedup.isEmpty = false := by
    cases h : weeks.dedup with
    | nil => rw [h] at hwt; cases hwt
    | cons a t => rfl
  unfold fetchAvailabilityEmployee
  simp only [hne, Bool.false_eq_true, if_false]
  set sorted := sortByWeek (convertWeekDocs docs) with hsorted
  have hsorted_mem : ∀ d ∈ sorted, d.week ≠ w := by
    intro d hd
    exact hmiss d (mem_sortByWeek.mp hd)
  have hnotin : (sorted.map (fun wd => wd.week)).contains w = false := by
    rw [Bool.eq_false_iff]
    intro hc
    rw [List.elem_iff] at hc
    obtain ⟨d, hd, hdw⟩ := List.mem_map.mp hc
    exact hsorted_mem d hd hdw
  constructor
  · rw [mem_sortByWeek, List.mem_filter]
    constructor
    · apply List.mem_append_right
      apply List.mem_map.mpr
      refine ⟨w, ?_, rfl⟩
      rw [List.mem_filter]
      exact ⟨hwt, by rw [hnotin]; rfl⟩
    · simpa [mkMissingWeek, List.elem_iff] using hwt
  · intro wd hwd hwdw
    rw [mem_sortByWeek, List.mem_filter] at hwd
    rcases List.mem_append.mp hwd.1 with hs | hsyn
    · exact absurd hwdw (hsorted_mem wd hs)
    · obtain ⟨w2, _, hmk⟩ := List.mem_map.mp hsyn
      rw [← hmk] at hwdw ⊢
      simp only [mkMissingWeek] at hwdw ⊢
      rw [hwdw]

/-- Witness for the amended C3 theorem at the counterexample store. -/
theorem missing_week_unavailable_record_witness :
    (5 ∈ ([5] : List Nat) ∧ ∀ d ∈ convertWeekDocs c3Docs, d.week ≠ 5) ∧
    mkMissingWeek 5 ∈ fetchAvailabilityEmployee c3Docs [5] :=
  ⟨⟨by decide, by decide⟩,
    (missing_week_unavailable_record c3Docs [5] 5 (by decide) (by decide)).1⟩

/-! ## Response cache (agent.py, lines 119-226)

The cache dictionary is modelled as an insertion-ordered association list
(the order of a Python dict); timestamps are integers. -/

structure CacheItem (α : Type) where
  response : α
  timestamp : Int
  deriving DecidableEq

/-- Lookup of a key in the cache dictionary. -/
def cacheLookup (cache : List (String × CacheItem α)) (k : String) : Option (CacheItem α) :=
  (cache.find? (fun p => p.1 == k)).map (fun p => p.2)

/-- Deletion of a key from the cache dictionary. -/
def cacheErase (cache : List (String × CacheItem α)) (k : String) :
    List (String × CacheItem α) :=
  cache.filter (fun p => p.1 != k)

/-- Embedding of the cache check (agent.py, lines 140-162): with caching
off or the key absent, a miss leaving the cache unchanged; with the entry
strictly older than the time-to-live, the entry is deleted and the lookup
is a miss; otherwise a hit returning the stored response and leaving the
cache unchanged. -/
def checkCache (use_cache : Bool) (cache_ttl : Int)
    (cache : List (String × CacheItem α)) (k : String) (now : Int) :
    Option α × List (String × CacheItem α) :=
  if !use_cache then (none, cache)
  else
    match cacheLookup cache k with
    | none => (none, cache)
    | some item =>
      if now - item.timestamp > cache_ttl then (none, cacheErase cache k)
      else (some item.response, cache)

/-- Python-dict assignment on the ordered association list: an existing
key keeps its position and gets the new value, a new key is appended. -/
def dictInsert (cache : List (String × CacheItem α)) (k : String) (item : CacheItem α) :
    List (String × CacheItem α) :=
  if cache.any (fun p => p.1 == k) then
    cache.map (fun p => if p.1 == k then (k, item) else p)
  else cache ++ [(k, item)]

/-- Embedding of the cache update (agent.py, lines 164-182): store the
response under the key, then, past 100 entries, delete the single first
(oldest-inserted) entry of the dictionary. -/
def updateCache (use_cache : Bool) (cache : List (String × CacheItem α))
    (k : String) (item : CacheItem α) : List (String × CacheItem α) :=
  if !use_cache then cache
  else
    let c := dictInsert cache k item
    if c.length > 100 then c.drop 1 else c

/-- Embedding of the caching skeleton of process-message (agent.py, lines
199-226 and 351-354): on a cache hit the cached response is returned and
the compute step (the agent invocation) is not run; on a miss the compute
step runs and its response is stored. The middle component records whether
the compute step was invoked. -/
def processMessage (use_cache : Bool) (cache_ttl : Int)
    (cache : List (String × CacheItem α)) (k : String) (now : Int) (compute : α) :
    α × Bool × List (String × CacheItem α) :=
  match checkCache use_cache cache_ttl cache k now with
  | (some v, c) => (v, false, c)
  | (none, c) => (compute, true, updateCache use_cache c k ⟨compute, now⟩)

/-- C7 counterexample: with an entry stored at time 0 and ttl 3600, a
lookup at time exactly 3600 — at the moment ttl seconds have elapsed — is
a hit returning the cached value with the entry kept and the compute step
not invoked, contradicting the claim that a lookup at ttl seconds deletes
the entry and recomputes. -/
theorem cache_hit_at_exact_ttl :
    checkCache true 3600 [("k", (⟨"v", 0⟩ : CacheItem String))] "k" 3600 =
      (some "v", [("k", (⟨"v", 0⟩ : CacheItem String))]) ∧
    processMessage true 3600 [("k", (⟨"v", 0⟩ : CacheItem String))] "k" 3600 "computed" =
      ("v", false, [("k", (⟨"v", 0⟩ : CacheItem String))]) := by
  constructor
  · decide
  · decide

/-- C7 as amended: for every cached entry, a lookup at most ttl seconds
after the entry was stored (strictly before expiry and also exactly at the
ttl boundary) returns the cached value without invoking the compute step
and leaves the cache unchanged, and a lookup strictly after ttl seconds
deletes the entry, is treated as a miss, and runs the compute step again. -/
theorem cache_ttl_boundary (cache : List (String × CacheItem α)) (k : String)
    (item : CacheItem α) (cache_ttl now : Int) (compute : α)
    (hfound : cacheLookup cache k = some item) :
    (now - item.timestamp ≤ cache_ttl →
      processMessage true cache_ttl cache k now compute = (item.response, false, cache)) ∧
    (now - item.timestamp > cache_ttl →
      processMessage true cache_ttl cache k now compute =
        (compute, true, updateCache true (cacheErase cache k) k ⟨compute, now⟩)) := by
  constructor
  · intro hle
    have hnot : ¬(now - item.timestamp > cache_ttl) := not_lt.mpr hle
    simp [processMessage, checkCache, hfound, hnot]
  · intro hgt
    simp [processMessage, checkCache, hfound, hgt]

/-- Witness for the amended C7 theorem: both branches at a concrete
cache. -/
theorem cache_ttl_boundary_witness :
    processMessage true 3600 [("k", (⟨"v", 0⟩ : CacheItem String))] "k" 3600 "c2" =
      ("v", false, [("k", (⟨"v", 0⟩ : CacheItem String))]) ∧
    processMessage true 3600 [("k", (⟨"v", 0⟩ : CacheItem String))] "k" 3601 "c2" =
      ("c2", true,
        updateCache true (cacheErase [("k", (⟨"v", 0⟩ : CacheItem String))] "k") "k" ⟨"c2", 3601⟩) :=
  ⟨(cache_ttl_boundary [("k", ⟨"v", 0⟩)] "k" ⟨"v", 0⟩ 3600 3600 "c2" rfl).1 (by decide),
   (cache_ttl_boundary [("k", ⟨"v", 0⟩)] "k" ⟨"v", 0⟩ 3600 3601 "c2" rfl).2 (by decide)⟩

theorem dictInsert_length_existing {cache : List (String × CacheItem α)} {k : String}
    {item : CacheItem α} (h : cache.any (fun p => p.1 == k) = true) :
    (dictInsert cache k item).length = cache.length := by
  simp [dictInsert, h]

theorem dictInsert_length_new {cache : List (String × CacheItem α)} {k : String}
    {item : CacheItem α} (h : cache.any (fun p => p.1 == k) = false) :
    (dictInsert cache k item).length = cache.length + 1 := by
  simp [dictInsert, h]

/-- C8: the cache never exceeds its capacity bound of 100 entries after an
insert completes — an insert into a cache within the bound stays within
the bound — and inserting a new key into a full cache evicts exactly the
single oldest-inserted entry (the head of the insertion-ordered
dictionary), keeping every other entry and appending the new one at the
end, independently of reads (the cache-check hit path returns the cache
unchanged). -/
theorem cache_capacity_fifo (cache : List (String × CacheItem α)) (k : String)
    (item : CacheItem α) (hlen : cache.length ≤ 100) :
    (updateCache true cache k item).length ≤ 100 ∧
    (cache.length = 100 → cache.any (fun p => p.1 == k) = false →
      updateCache true cache k item = cache.drop 1 ++ [(k, item)]) := by
  constructor
  · unfold updateCache
    simp only [Bool.not_true, Bool.false_eq_true, if_false]
    by_cases hex : cache.any (fun p => p.1 == k) = true
    · rw [if_neg]
      · rw [dictInsert_length_existing hex]; exact hlen
      · rw [dictInsert_length_existing hex]; omega
    · rw [Bool.not_eq_true] at hex
      by_cases hfull : cache.length = 100
      · rw [if_pos]
        · rw [List.length_drop, dictInsert_length_new hex, hfull]
        · rw [dictInsert_length_new hex, hfull]; omega
      · rw [if_neg]
        · rw [dictInsert_length_new hex]; omega
        · rw [dictInsert_length_new hex]; omega
  · intro hfull hex
    unfold updateCache
    simp only [Bool.not_true, Bool.false_eq_true, if_false]
    rw [if_pos]
    · unfold dictInsert
      rw [hex]
      simp only [Bool.false_eq_true, if_false]
      rw [List.drop_append_of_le_length]
      omega
    · rw [dictInsert_length_new hex, hfull]; omega

/-- Witness for C8: inserting a new key into a concrete full cache of 100
entries evicts exactly the first entry. -/
theorem cache_capacity_fifo_witness :
    ((List.range 100).map (fun i => (toString i, (⟨"r", 0⟩ : CacheItem String)))).length ≤ 100 ∧
    (updateCache true
        ((List.range 100).map (fun i => (toString i, (⟨"r", 0⟩ : CacheItem String))))
        "new" ⟨"nr", 5⟩).length ≤ 100 :=
  ⟨by decide,
    (cache_capacity_fifo
      ((List.range 100).map (fun i => (toString i, (⟨"r", 0⟩ : CacheItem String))))
      "new" ⟨"nr", 5⟩ (by decide)).1⟩

/-! ## Employee matching (firebase_utils.py, fetch_employees, lines 675-992) -/

/-- An employee document: the rank field holds the official name of the
nested rank dictionary when that dictionary is present and non-empty. -/
structure Employee where
  id : String
  employee_number : Option String
  name : String
  location : String
  rank : Option String
  skills : List String
  deriving DecidableEq

/-- A special-case sentinel record (firebase_utils.py, lines 855-870):
the informational message and up to three sampled name/location pairs. -/
structure SpecialCase where
  message : String
  samplePartners : List (String × String)
  deriving DecidableEq

/-- An element of the fetch result: either an employee document
(optionally enriched with its availability data) or the special-case
sentinel. -/
inductive FetchResult where
  | emp (e : Employee) (availability : Option (List WeekData))
  | special (sc : SpecialCase)
  deriving DecidableEq

/-- The skill mapping applied before the server-side skills filter
(firebase_utils.py, lines 747-764). -/
def skillMapping : List (String × String) :=
  [("frontend", "Frontend Developer"), ("front-end", "Frontend Developer"),
   ("front end", "Frontend Developer"), ("ui", "Frontend Developer"),
   ("backend", "Backend Developer"), ("back-end", "Backend Developer"),
   ("back end", "Backend Developer"), ("fullstack", "Full Stack Developer"),
   ("full-stack", "Full Stack Developer"), ("full stack", "Full Stack Developer"),
   ("product", "Product Manager"), ("project", "Project Manager"),
   ("agile", "Agile Coach"), ("scrum", "Scrum Master"),
   ("data", "Data Engineer"), ("cloud", "Cloud Engineer")]

/-- Transformation of one requested skill term to its database
representation; unmapped terms are kept as is. -/
def transformSkill (s : String) : String :=
  match skillMapping.lookup (lowerString s) with
  | some m => m
  | none => s

def transformSkills (skills : List String) : List String :=
  skills.map transformSkill

/-- Embedding of the server-side Firestore query (firebase_utils.py,
lines 697-797): an equality/any-of filter on location when locations were
given, and an array-contains-any filter on the transformed skills when
skills were given. Rank is deliberately not filtered server-side. -/
def serverSideFilter (locations skills : List String) (db : List Employee) : List Employee :=
  db.filter (fun e =>
    (locations.isEmpty || locations.contains e.location) &&
    (skills.isEmpty || (transformSkills skills).any (fun s => e.skills.contains s)))

/-- Client-side rank test (firebase_utils.py, lines 807-817): employees
without rank data are dropped; otherwise case-insensitive equality of the
official rank name against any requested rank. -/
def rankMatchesAny (ranks : List String) (e : Employee) : Bool :=
  match e.rank with
  | none => false
  | some official => ranks.any (fun r => lowerString r == lowerString official)

/-- The post-query rank filtering stage (firebase_utils.py, lines
801-820), applied only when ranks were requested. -/
def postRankFilter (ranks : List String) (es : List Employee) : List Employee :=
  if ranks.isEmpty then es else es.filter (rankMatchesAny ranks)

/-- Whether the requested ranks name Partner (firebase_utils.py, line
824). -/
def lookingForPartner (ranks : List String) : Bool :=
  !ranks.isEmpty && ranks.any (fun r => lowerString r == "partner")

/-- Whether an employee document is a Partner (firebase_utils.py, line
840): present rank data with official name equal, lowercased, to
partner. -/
def isPartnerEmployee (e : Employee) : Bool :=
  match e.rank with
  | none => false
  | some official => lowerString official == "partner"

/-- Embedding of the broadened Partner search and sentinel construction
(firebase_utils.py, lines 826-874): all Partners anywhere in the
collection; when any exist, a single informational sentinel naming the
requested locations and the distinct locations where Partners were found,
with up to three sampled name/location pairs. -/
def partnerFallback (db : List Employee) (locations : List String) : List FetchResult :=
  let partner_list := db.filter isPartnerEmployee
  if partner_list.isEmpty then []
  else
    let partner_locations := (partner_list.map (fun e => e.location)).dedup
    [FetchResult.special
      { message := "No Partners found in " ++ String.intercalate ", " locations ++
          ". Partners are available in " ++ String.intercalate ", " partner_locations ++ ".",
        samplePartners := (partner_list.take 3).map (fun p => (p.name, p.location)) }]

/-- Client-side all-of skill test (firebase_utils.py, lines 886-890):
every requested skill term is, case-insensitively, a member of the
employee's skill list. -/
def hasAllSkills (skills : List String) (e : Employee) : Bool :=
  let empSkills := e.skills.map lowerString
  skills.all (fun s => empSkills.contains (lowerString s))

/-- The additional skills filtering stage (firebase_utils.py, lines
881-892), applied only when more than one skill was requested. -/
def multiSkillFilter (skills : List String) (es : List Employee) : List Employee :=
  if 1 < skills.length then es.filter (hasAllSkills skills) else es

/-- Per-week status test (firebase_utils.py, lines 914-947): a direct
case-insensitive membership of the stored status in the requested
statuses, or — when available was requested without partial being an
independently requested bucket — a stored partially-available status
counting as available. -/
def weekStatusMatch (availability_status : List String) (wd : WeekData) : Bool :=
  let lowercase_statuses := availability_status.map lowerString
  let looking_for_available := lowercase_statuses.contains "available"
  let acceptPartialAsAvailable := looking_for_available &&
    !(lowercase_statuses.contains "partially available" ||
      lowercase_statuses.contains "partial")
  lowercase_statuses.contains (lowerString wd.status) ||
    (acceptPartialAsAvailable && lowerString wd.status == "partially available")

/-- Python truthiness of the optional minimum-hours filter: zero is falsy
and disables the filter. -/
def minHoursTruthy (min_hours : Option Nat) : Bool :=
  match min_hours with
  | some h => h != 0
  | none => false

/-- Availability acceptance for one employee (firebase_utils.py, lines
910-959): the status check requires some fetched week to match; the
minimum-hours check, when requested and still passing, requires every
fetched week to meet the threshold. -/
def meetsAvailabilityCriteria (availability_status : List String)
    (min_hours : Option Nat) (empAvail : List WeekData) : Bool :=
  let meets1 :=
    if availability_status.isEmpty then true
    else empAvail.any (weekStatusMatch availability_status)
  if minHoursTruthy min_hours && meets1 then
    empAvail.all (fun wd => min_hours.getD 0 ≤ wd.hours)
  else meets1

/-- The availability filtering stage (firebase_utils.py, lines 894-967):
availability is batch-fetched for the surviving employees; employees
without an employee number or without availability data are dropped;
accepted employees carry their availability data in the result. -/
def availabilityFilterStage (store : String → Option (List WeekDoc)) (weeks : List Nat)
    (availability_status : List String) (min_hours : Option Nat)
    (es : List Employee) : List FetchResult :=
  let employee_numbers := es.filterMap (fun e => e.employee_number)
  let availability_data := fetchAvailabilityBatch store employee_numbers weeks
  es.filterMap (fun e =>
    match e.employee_number with
    | none => none
    | some en =>
      if en = "" then none
      else
        match availability_data.lookup en with
        | none => none
        | some empAvail =>
          if meetsAvailabilityCriteria availability_status min_hours empAvail then
            some (FetchResult.emp e (some empAvail))
          else none)

/-- Whether the availability stage runs (firebase_utils.py, line 895). -/
def availabilityNeeded (weeks : List Nat) (availability_status : List String)
    (min_hours : Option Nat) : Bool :=
  !weeks.isEmpty || !availability_status.isEmpty || minHoursTruthy min_hours

/-- The final limit/offset window (firebase_utils.py, lines 969-974). -/
def sliceWindow (limitN offsetN : Nat) (rs : List FetchResult) : List FetchResult :=
  let total := rs.length
  let startIdx := min offsetN total
  let endIdx := min (startIdx + limitN) total
  (rs.drop startIdx).take (endIdx - startIdx)

/-- Embedding of FirebaseClient.fetch_employees (firebase_utils.py, lines
675-992): server-side filtering, client-side rank filtering, the Partner
fallback sentinel when the filtered search is empty, the client-side
multi-skill all-of filter, availability filtering, and the limit/offset
window. -/
def fetch_employees (db : List Employee) (store : String → Option (List WeekDoc))
    (locations ranks skills : List String) (weeks : List Nat)
    (availability_status : List String) (min_hours : Option Nat)
    (limitN offsetN : Nat) : List FetchResult :=
  let employee_list := postRankFilter ranks (serverSideFilter locations skills db)
  let special_case_results :=
    if employee_list.isEmpty && lookingForPartner ranks && !locations.isEmpty then
      partnerFallback db locations
    else []
  if employee_list.isEmpty && !special_case_results.isEmpty then special_case_results
  else
    let employee_list2 := multiSkillFilter skills employee_list
    let results :=
      if availabilityNeeded weeks availability_status min_hours then
        availabilityFilterStage store weeks availability_status min_hours employee_list2
      else employee_list2.map (fun e => FetchResult.emp e none)
    sliceWindow limitN offsetN results

/-! ## Lemmas about the matching stages -/

theorem sliceWindow_subset {limitN offsetN : Nat} {rs : List FetchResult} {r : FetchResult}
    (h : r ∈ sliceWindow limitN offsetN rs) : r ∈ rs := by
  unfold sliceWindow at h
  exact List.mem_of_mem_drop (List.mem_of_mem_take h)

theorem sliceWindow_length (limitN offsetN : Nat) (rs : List FetchResult) :
    (sliceWindow limitN offsetN rs).length ≤ limitN := by
  simp only [sliceWindow, List.length_take, List.length_drop]
  omega

theorem sliceWindow_nil (limitN offsetN : Nat) : sliceWindow limitN offsetN [] = [] := by
  simp [sliceWindow]

theorem partnerFallback_special {db : List Employee} {locations : List String}
    {r : FetchResult} (h : r ∈ partnerFallback db locations) :
    ∃ sc, r = FetchResult.special sc := by
  simp only [partnerFallback] at h
  split at h
  · cases h
  · rw [List.mem_singleton] at h
    exact ⟨_, h⟩

theorem partnerFallback_length (db : List Employee) (locations : List String) :
    (partnerFallback db locations).length ≤ 1 := by
  simp only [partnerFallback]
  split
  · simp
  · simp

theorem multiSkillFilter_all {skills : List String} {es : List Employee} {e : Employee}
    (hsk : 1 < skills.length) (he : e ∈ multiSkillFilter skills es) :
    hasAllSkills skills e = true := by
  unfold multiSkillFilter at he
  rw [if_pos hsk] at he
  exact (List.mem_filter.mp he).2

theorem multiSkillFilter_nil (skills : List String) :
    multiSkillFilter skills [] = [] := by
  unfold multiSkillFilter
  split <;> rfl

theorem availabilityFilterStage_emp {store : String → Option (List WeekDoc)}
    {weeks : List Nat} {availability_status : List String} {min_hours : Option Nat}
    {es : List Employee} {r : FetchResult}
    (h : r ∈ availabilityFilterStage store weeks availability_status min_hours es) :
    ∃ e a, r = FetchResult.emp e (some a) ∧ e ∈ es := by
  simp only [availabilityFilterStage] at h
  rcases List.mem_filterMap.mp h with ⟨e, he, hfe⟩
  split at hfe
  · cases hfe
  · split at hfe
    · cases hfe
    · split at hfe
      · cases hfe
      · split at hfe
        · exact ⟨e, _, (Option.some_injective _ hfe).symm, he⟩
        · cases hfe

theorem availabilityFilterStage_nil (store : String → Option (List WeekDoc))
    (weeks : List Nat) (availability_status : List String) (min_hours : Option Nat) :
    availabilityFilterStage store weeks availability_status min_hours [] = [] := rfl

theorem memResultsStage {store : String → Option (List WeekDoc)} {weeks : List Nat}
    {availability_status : List String} {min_hours : Option Nat} {limitN offsetN : Nat}
    {es : List Employee} {r : FetchResult} {e : Employee} {a : Option (List WeekData)}
    (hr : r ∈ sliceWindow limitN offsetN
      (if availabilityNeeded weeks availability_status min_hours = true then
        availabilityFilterStage store weeks availability_status min_hours es
      else es.map (fun x => FetchResult.emp x none)))
    (hre : r = FetchResult.emp e a) : e ∈ es := by
  have hr2 := sliceWindow_subset hr
  split at hr2
  · rcases availabilityFilterStage_emp hr2 with ⟨e2, a2, heq, he2⟩
    rw [hre] at heq
    injection heq with h1 h2
    rw [h1]; exact he2
  · rcases List.mem_map.mp hr2 with ⟨e2, he2, heq⟩
    rw [hre] at heq
    injection heq with h1 h2
    rw [← h1]; exact he2

/-- C1: for every query requesting two or more skills, every employee
record returned by the matcher has every requested skill term as a
case-insensitive member of its skill list (the only non-employee records a
result can carry are special-case sentinels); in particular a query for
Python and Java can never return an employee whose skills are exactly
Python. -/
theorem multiSkill_all_of (db : List Employee) (store : String → Option (List WeekDoc))
    (locations ranks skills : List String) (weeks : List Nat)
    (availability_status : List String) (min_hours : Option Nat) (limitN offsetN : Nat)
    (hsk : 2 ≤ skills.length) :
    ∀ r ∈ fetch_employees db store locations ranks skills weeks availability_status
        min_hours limitN offsetN,
      ∀ e a, r = FetchResult.emp e a →
        ∀ s ∈ skills, (e.skills.map lowerString).contains (lowerString s) = true := by
  intro r hr e a hre s hs
  simp only [fetch_employees] at hr
  have hmem : e ∈ multiSkillFilter skills
      (postRankFilter ranks (serverSideFilter locations skills db)) := by
    split at hr
    · split at hr
      · rcases partnerFallback_special hr with ⟨sc, hsc⟩
        rw [hsc] at hre; cases hre
      · exact memResultsStage hr hre
    · split at hr
      · exact absurd hr (List.not_mem_nil r)
      · exact memResultsStage hr hre
  have hall := multiSkillFilter_all (by omega) hmem
  unfold hasAllSkills at hall
  exact List.all_eq_true.mp hall s hs

/-- An empty availability store for the concrete scenarios below. -/
def noStore : String → Option (List WeekDoc) := fun _ => none

/-- Concrete employee whose skills are exactly Python. -/
def pythonOnlyEmployee : Employee :=
  { id := "3", employee_number := some "E3", name := "Carol", location := "London",
    rank := some "Analyst", skills := ["Python"] }

/-- Witness for C1: the all-of property at the concrete query for Python
and Java over a collection holding an employee whose skills are exactly
Python (that employee is consequently never among the results). -/
theorem multiSkill_all_of_witness :
    (2 ≤ (["Python", "Java"] : List String).length) ∧
    (∀ r ∈ fetch_employees [pythonOnlyEmployee] noStore [] [] ["Python", "Java"] [] [] none 20 0,
      ∀ e a, r = FetchResult.emp e a →
        ∀ s ∈ (["Python", "Java"] : List String),
          (e.skills.map lowerString).contains (lowerString s) = true) :=
  ⟨by decide,
    multiSkill_all_of [pythonOnlyEmployee] noStore [] [] ["Python", "Java"] [] [] none 20 0
      (by decide)⟩

/-- C10: for every query, the result of fetch-employees never carries more
than the requested limit of entries (default 20): the normal path is
sliced to the offset/limit window and the fallback path returns at most
the single sentinel. -/
theorem fetch_employees_limit_bound (db : List Employee)
    (store : String → Option (List WeekDoc)) (locations ranks skills : List String)
    (weeks : List Nat) (availability_status : List String) (min_hours : Option Nat)
    (limitN offsetN : Nat) (hl : 1 ≤ limitN) :
    (fetch_employees db store locations ranks skills weeks availability_status
        min_hours limitN offsetN).length ≤ limitN := by
  simp only [fetch_employees]
  split
  · split
    · exact le_trans (partnerFallback_length db locations) hl
    · exact sliceWindow_length limitN offsetN _
  · split
    · simp
    · exact sliceWindow_length limitN offsetN _

/-- Witness for C10 at a concrete collection and the default limit. -/
theorem fetch_employees_limit_bound_witness :
    (1 ≤ 20) ∧
    (fetch_employees [pythonOnlyEmployee] noStore ["London"] [] [] [] [] none 20 0).length ≤ 20 :=
  ⟨by decide,
    fetch_employees_limit_bound [pythonOnlyEmployee] noStore ["London"] [] [] [] [] none 20 0
      (by decide)⟩

/-! ## The Partner fallback sentinel (C2) -/

/-- Four Partners in London, for the C2 counterexample. -/
def fourLondonPartners : List Employee :=
  [{ id := "1", employee_number := some "E1", name := "P1", location := "London",
     rank := some "Partner", skills := [] },
   { id := "2", employee_number := some "E2", name := "P2", location := "London",
     rank := some "Partner", skills := [] },
   { id := "3", employee_number := some "E3", name := "P3", location := "London",
     rank := some "Partner", skills := [] },
   { id := "4", employee_number := some "E4", name := "P4", location := "London",
     rank := some "Partner", skills := [] }]

/-- The same four Partners plus a fifth, for the C2 counterexample. -/
def fiveLondonPartners : List Employee :=
  fourLondonPartners ++
    [{ id := "5", employee_number := some "E5", name := "P5", location := "London",
       rank := some "Partner", skills := [] }]

/-- C2 counterexample: the Partner query for Oslo over a collection with
four Partners in London and over one with five Partners in London returns
the very same single sentinel — so the sentinel does not describe how many
matches exist, contradicting that part of the claim (it names only the
locations and up to three samples). -/
theorem partner_sentinel_no_count :
    fetch_employees fourLondonPartners noStore ["Oslo"] ["Partner"] [] [] [] none 20 0 =
      fetch_employees fiveLondonPartners noStore ["Oslo"] ["Partner"] [] [] [] none 20 0 ∧
    (fourLondonPartners.filter isPartnerEmployee).length = 4 ∧
    (fiveLondonPartners.filter isPartnerEmployee).length = 5 ∧
    fetch_employees fourLondonPartners noStore ["Oslo"] ["Partner"] [] [] [] none 20 0 =
      [FetchResult.special
        { message := "No Partners found in Oslo. Partners are available in London.",
          samplePartners := [("P1", "London"), ("P2", "London"), ("P3", "London")] }] := by
  refine ⟨?_, ?_, ?_, ?_⟩ <;> decide

/-- C2 as amended: for every query constrained by rank Partner and by a
location list, whose location-filtered search yields zero employees: when
Partners exist in other locations the matcher returns exactly the single
fallback sentinel (naming the requested locations, the distinct locations
holding Partners, and up to three sampled Partners) rather than the empty
or broadened list; when no Partner exists anywhere it returns the empty
list. -/
theorem partner_sentinel_behavior (db : List Employee)
    (store : String → Option (List WeekDoc)) (locations skills : List String)
    (weeks : List Nat) (availability_status : List String) (min_hours : Option Nat)
    (limitN offsetN : Nat) (hloc : locations ≠ [])
    (hempty : postRankFilter ["Partner"] (serverSideFilter locations skills db) = []) :
    ((∃ e ∈ db, isPartnerEmployee e = true ∧ e.location ∉ locations) →
      fetch_employees db store locations ["Partner"] skills weeks availability_status
          min_hours limitN offsetN = partnerFallback db locations ∧
      ∃ sc, partnerFallback db locations = [FetchResult.special sc]) ∧
    ((∀ e ∈ db, isPartnerEmployee e = false) →
      fetch_employees db store locations ["Partner"] skills weeks availability_status
          min_hours limitN offsetN = []) := by
  have hlfp : lookingForPartner ["Partner"] = true := by decide
  have hlocb : locations.isEmpty = false := by
    cases locations with
    | nil => exact absurd rfl hloc
    | cons a t => rfl
  constructor
  · intro ⟨e, he, hpe, hne⟩
    have hplist : (db.filter isPartnerEmployee).isEmpty = false := by
      have : e ∈ db.filter isPartnerEmployee := List.mem_filter.mpr ⟨he, hpe⟩
      cases hfl : db.filter isPartnerEmployee with
      | nil => rw [hfl] at this; cases this
      | cons x t => rfl
    have hfb : ∃ sc, partnerFallback db locations = [FetchResult.special sc] := by
      simp only [partnerFallback, hplist, Bool.false_eq_true, if_false]
      exact ⟨_, rfl⟩
    constructor
    · rcases hfb with ⟨sc, hsc⟩
      simp only [fetch_employees, hempty, hlfp, hlocb, List.isEmpty_nil, Bool.not_false,
        Bool.and_true, Bool.true_and, if_true, hsc, List.isEmpty_cons, if_pos]
    · exact hfb
  · intro hnone
    have hplist : db.filter isPartnerEmployee = [] := by
      rw [List.filter_eq_nil_iff]
      intro e he
      rw [hnone e he]
      exact Bool.false_ne_true
    have hfb : partnerFallback db locations = [] := by
      simp [partnerFallback, hplist]
    simp only [fetch_employees, hempty, hlfp, hlocb, List.isEmpty_nil, Bool.not_false,
      Bool.and_true, Bool.true_and, if_true, hfb, multiSkillFilter_nil]
    split
    · rfl
    · split
      · rw [availabilityFilterStage_nil, sliceWindow_nil]
      · rw [List.map_nil, sliceWindow_nil]

/-- Witness for the amended C2 theorem: the Oslo Partner query over the
four-London-Partner collection yields exactly the fallback sentinel. -/
theorem partner_sentinel_behavior_witness :
    fetch_employees fourLondonPartners noStore ["Oslo"] ["Partner"] [] [] [] none 20 0 =
      partnerFallback fourLondonPartners ["Oslo"] ∧
    ∃ sc, partnerFallback fourLondonPartners ["Oslo"] = [FetchResult.special sc] :=
  (partner_sentinel_behavior fourLondonPartners noStore ["Oslo"] [] [] [] none 20 0
      (by decide) (by decide)).1
    (by decide)

/-! ## Partial-availability status matching (C6) -/

/-- Equation lemma exposing the status test of the availability filter. -/
theorem weekStatusMatch_eq (availability_status : List String) (wd : WeekData) :
    weekStatusMatch availability_status wd =
      ((availability_status.map lowerString).contains (lowerString wd.status) ||
        (((availability_status.map lowerString).contains "available" &&
          !((availability_status.map lowerString).contains "partially available" ||
            (availability_status.map lowerString).contains "partial")) &&
          (lowerString wd.status == "partially available"))) := rfl

/-- C6: when the requested status set contains Available
(case-insensitively), a stored Partially Available week matches exactly
when partial is not independently requested or Partially Available is
itself among the requested statuses; and whenever Partial or Partially
Available is independently requested, the week test degenerates to exact
case-insensitive membership of the stored status in the requested set. -/
theorem partial_available_matching (availability_status : List String)
    (h : (availability_status.map lowerString).contains "available" = true) :
    (∀ w n hrs,
      weekStatusMatch availability_status
          { week := w, status := "Partially Available", notes := n, hours := hrs } = true ↔
        (((availability_status.map lowerString).contains "partial" = false ∧
          (availability_status.map lowerString).contains "partially available" = false) ∨
         (availability_status.map lowerString).contains "partially available" = true)) ∧
    (((availability_status.map lowerString).contains "partial" ||
        (availability_status.map lowerString).contains "partially available") = true →
      ∀ wd : WeekData, weekStatusMatch availability_status wd = true ↔
        (availability_status.map lowerString).contains (lowerString wd.status) = true) := by
  have hpa : lowerString "Partially Available" = "partially available" := by decide
  constructor
  · intro w n hrs
    rw [weekStatusMatch_eq]
    simp only [hpa, h]
    cases hpart : (availability_status.map lowerString).contains "partial" <;>
      cases hpav : (availability_status.map lowerString).contains "partially available" <;>
        simp [hpart, hpav]
  · intro hor wd
    rw [weekStatusMatch_eq]
    cases hpart : (availability_status.map lowerString).contains "partial" <;>
      cases hpav : (availability_status.map lowerString).contains "partially available"
    · rw [hpart, hpav] at hor
      exact absurd hor (by decide)
    · simp [hpart, hpav]
    · simp [hpart, hpav]
    · simp [hpart, hpav]

/-- Witness for C6: with only Available requested, a stored Partially
Available week matches; the theorem applied at the concrete request. -/
theorem partial_available_matching_witness :
    weekStatusMatch ["Available"]
      { week := 3, status := "Partially Available", notes := "", hours := 0 } = true :=
  ((partial_available_matching ["Available"] (by decide)).1 3 "" 0).mpr (by decide)

end GenieResource
